/-
  Verification of the ctdsLint analysis core against its specification.

  The definitions below are a shallow embedding of the TypeScript sources:
    - `core/complexity-analyzer.ts` (structural / cyclomatic / Halstead /
      composite metrics, single- and batch-component entry points),
    - `plugin/data-adapter.ts` (`findComponents`),
    - `cli/reporters.ts` and `ui/message-handler.ts` (`calculateAuditStats`).

  Modelling conventions:
    - JavaScript numbers carried by nodes (opacity, paddings, colour
      channels, ...) are modelled as rationals: every IEEE double is a
      rational, and the analyzer only compares / tokenizes these values,
      it never mixes them arithmetically.
    - The derived metric values produced with `Math.log2` are modelled
      over the reals (`Real.logb 2`), `Math.round` as `round`
      (both round half toward positive infinity).
    - Optional fields become `Option`; a JavaScript exception becomes
      `Except.error`.
-/
import Mathlib

namespace CtdsLint

/-- RGBA colour, each channel a JS number (`shared/types.ts` `LintRGBA`). -/
structure LintRGBA where
  r : ℚ
  g : ℚ
  b : ℚ
  a : ℚ
deriving DecidableEq

/-- A paint is either SOLID (with a colour) or some other paint type that
carries no colour; both carry visibility (`LintSolidPaint` / `LintOtherPaint`). -/
inductive LintPaint where
  | solid (color : LintRGBA) (visible : Bool)
  | other (paintType : String) (visible : Bool)
deriving DecidableEq

/-- Effect: type tag, visibility, optional colour (`LintEffect`). -/
structure LintEffect where
  effectType : String
  visible : Bool
  color : Option LintRGBA
deriving DecidableEq

/-- Constraints: one tag per axis. -/
structure LintConstraints where
  horizontal : String
  vertical : String
deriving DecidableEq

/-- A JS number or the `'MIXED'` sentinel (cornerRadius, fontSize). -/
inductive NumOrMixed where
  | num (val : ℚ)
  | MIXED
deriving DecidableEq

/-- `componentPropertyDefinitions` entry type tag. -/
inductive PropDefType where
  | VARIANT
  | BOOLEAN
  | INSTANCE_SWAP
  | TEXT
deriving DecidableEq

/-- One `componentPropertyDefinitions` entry: type tag plus the optional
`variantOptions` list. -/
structure ComponentPropertyDefinition where
  type : PropDefType
  variantOptions : Option (List String)
deriving DecidableEq

/-- The non-recursive payload of a `LintNode` (every field the complexity
analyzer and `findComponents` read).  `componentPropertyDefinitions` is a
JS object, modelled as an insertion-ordered association list. -/
structure LintNodeData where
  id : String
  name : String
  type : String
  componentPropertyDefinitions : Option (List (String × ComponentPropertyDefinition))
  layoutMode : Option String
  layoutSizingHorizontal : Option String
  layoutSizingVertical : Option String
  blendMode : Option String
  constraints : Option LintConstraints
  effects : Option (List LintEffect)
  fills : Option (List LintPaint)
  strokes : Option (List LintPaint)
  cornerRadius : Option NumOrMixed
  opacity : Option ℚ
  strokeWeight : Option ℚ
  fontSize : Option NumOrMixed
  paddingTop : Option ℚ
  paddingRight : Option ℚ
  paddingBottom : Option ℚ
  paddingLeft : Option ℚ
  itemSpacing : Option ℚ
deriving DecidableEq

/-- The recursive node type (`shared/types.ts` `LintNode`): payload plus the
optional `children` array. -/
inductive LintNode where
  | mk (data : LintNodeData) (children : Option (List LintNode))

def LintNode.data : LintNode → LintNodeData
  | .mk d _ => d

def LintNode.children : LintNode → Option (List LintNode)
  | .mk _ c => c

def LintNode.type (n : LintNode) : String := n.data.type

def LintNode.name (n : LintNode) : String := n.data.name

def LintNode.id (n : LintNode) : String := n.data.id

/-- `children ?? []`: the children list the walks actually iterate. -/
def LintNode.childList : LintNode → List LintNode
  | .mk _ none => []
  | .mk _ (some l) => l

@[simp] theorem LintNode.data_mk (d : LintNodeData) (cs : Option (List LintNode)) :
    (LintNode.mk d cs).data = d := rfl

@[simp] theorem LintNode.children_mk (d : LintNodeData) (cs : Option (List LintNode)) :
    (LintNode.mk d cs).children = cs := rfl

@[simp] theorem LintNode.type_mk (d : LintNodeData) (cs : Option (List LintNode)) :
    (LintNode.mk d cs).type = d.type := rfl

@[simp] theorem LintNode.name_mk (d : LintNodeData) (cs : Option (List LintNode)) :
    (LintNode.mk d cs).name = d.name := rfl

@[simp] theorem LintNode.id_mk (d : LintNodeData) (cs : Option (List LintNode)) :
    (LintNode.mk d cs).id = d.id := rfl

@[simp] theorem LintNode.childList_none (d : LintNodeData) :
    (LintNode.mk d none).childList = [] := rfl

@[simp] theorem LintNode.childList_some (d : LintNodeData) (l : List LintNode) :
    (LintNode.mk d (some l)).childList = l := rfl

mutual
/-- Specification helper: all nodes of the subtree in depth-first
pre-order, children in document order. -/
def allNodes : LintNode → List LintNode
  | .mk d cs =>
    .mk d cs :: (match cs with
      | none => []
      | some l => allNodesList l)

def allNodesList : List LintNode → List LintNode
  | [] => []
  | c :: cs => allNodes c ++ allNodesList cs
end

-- ============================================================================
-- Structural metrics (`computeStructuralMetrics`)
-- ============================================================================

/-- Result record of `computeStructuralMetrics`.  `typeDistribution` is a JS
record keyed by node type, modelled as an insertion-ordered association
list. -/
structure StructuralMetrics where
  nodeCount : ℕ
  maxDepth : ℕ
  leafCount : ℕ
  maxFanOut : ℕ
  uniqueTypes : ℕ
  typeDistribution : List (String × ℕ)
deriving DecidableEq

/-- The mutable state threaded by the imperative `walk` closure of
`computeStructuralMetrics`. -/
structure StructState where
  nodeCount : ℕ
  leafCount : ℕ
  maxDepth : ℕ
  maxFanOut : ℕ
  typeDistribution : List (String × ℕ)
deriving DecidableEq

/-- `dist[t] = (dist[t] ?? 0) + 1` on a JS record: bump the entry if the
key exists, else append it (JS objects preserve insertion order). -/
def bump : List (String × ℕ) → String → List (String × ℕ)
  | [], t => [(t, 1)]
  | (k, v) :: rest, t =>
    if k = t then (k, v + 1) :: rest else (k, v) :: bump rest t

/-- Record lookup with default 0 (`dist[t] ?? 0`). -/
def lookupD (l : List (String × ℕ)) (t : String) : ℕ :=
  match l with
  | [] => 0
  | (k, v) :: rest => if k = t then v else lookupD rest t

mutual
/-- The `walk(node, depth)` closure of `computeStructuralMetrics`: counts the
node, bumps the type histogram, tracks the depth maximum, then either counts
a leaf (empty `children ?? []`) or tracks fan-out and recurses. -/
def structWalk : LintNode → ℕ → StructState → StructState
  | .mk d cs, depth, s =>
    let s1 : StructState :=
      { s with
        nodeCount := s.nodeCount + 1
        typeDistribution := bump s.typeDistribution d.type
        maxDepth := if depth > s.maxDepth then depth else s.maxDepth }
    match cs with
    | none => { s1 with leafCount := s1.leafCount + 1 }
    | some [] => { s1 with leafCount := s1.leafCount + 1 }
    | some (c :: rest) =>
      let len := (c :: rest).length
      let s2 : StructState :=
        { s1 with maxFanOut := if len > s1.maxFanOut then len else s1.maxFanOut }
      structWalkList (c :: rest) (depth + 1) s2

def structWalkList : List LintNode → ℕ → StructState → StructState
  | [], _, s => s
  | c :: cs, depth, s => structWalkList cs depth (structWalk c depth s)
end

/-- `computeStructuralMetrics` (complexity-analyzer.ts, lines 28-66). -/
def computeStructuralMetrics (root : LintNode) : StructuralMetrics :=
  let s := structWalk root 0 ⟨0, 0, 0, 0, []⟩
  { nodeCount := s.nodeCount
    maxDepth := s.maxDepth
    leafCount := s.leafCount
    maxFanOut := s.maxFanOut
    uniqueTypes := s.typeDistribution.length
    typeDistribution := s.typeDistribution }

-- ============================================================================
-- Cyclomatic metrics (`computeCyclomaticMetrics`)
-- ============================================================================

/-- The breakdown record kept alongside the cyclomatic score. -/
structure CycloBreakdown where
  variants : ℕ
  booleanProps : ℕ
  instanceSwaps : ℕ
  textProps : ℕ
deriving DecidableEq

/-- Result record of `computeCyclomaticMetrics`. -/
structure CyclomaticMetrics where
  score : ℕ
  breakdown : CycloBreakdown
deriving DecidableEq

/-- The `switch (def.type)` body of the cyclomatic walk applied to one
property definition: VARIANT adds `variantOptions?.length ?? 1` to the
variant counter, the other three types add 1 to their own counter. -/
def addDef (c : CycloBreakdown) (d : ComponentPropertyDefinition) : CycloBreakdown :=
  match d.type with
  | .VARIANT =>
    { c with variants := c.variants + (match d.variantOptions with
        | some opts => opts.length
        | none => 1) }
  | .BOOLEAN => { c with booleanProps := c.booleanProps + 1 }
  | .INSTANCE_SWAP => { c with instanceSwaps := c.instanceSwaps + 1 }
  | .TEXT => { c with textProps := c.textProps + 1 }

mutual
/-- The `walk(node)` closure of `computeCyclomaticMetrics`: fold the
`switch` over `Object.values(node.componentPropertyDefinitions)` when the
field is present, then recurse over `node.children` when present. -/
def cycloWalk : LintNode → CycloBreakdown → CycloBreakdown
  | .mk d cs, c =>
    let c1 :=
      match d.componentPropertyDefinitions with
      | none => c
      | some defs => (defs.map Prod.snd).foldl addDef c
    match cs with
    | none => c1
    | some l => cycloWalkList l c1

def cycloWalkList : List LintNode → CycloBreakdown → CycloBreakdown
  | [], c => c
  | n :: ns, c => cycloWalkList ns (cycloWalk n c)
end

/-- `computeCyclomaticMetrics` (complexity-analyzer.ts, lines 83-124):
score = 1 + variants + booleanProps + instanceSwaps + textProps. -/
def computeCyclomaticMetrics (root : LintNode) : CyclomaticMetrics :=
  let c := cycloWalk root ⟨0, 0, 0, 0⟩
  { score := 1 + c.variants + c.booleanProps + c.instanceSwaps + c.textProps
    breakdown := c }

-- ============================================================================
-- Halstead metrics (`computeHalsteadMetrics`)
-- ============================================================================

/-- One operator or operand token.  The source builds prefixed strings
(e.g. `type:FRAME`, `radius:4`); distinct constructors/payloads produce
distinct strings, so the token type is modelled as an inductive with one
constructor per prefix. -/
inductive Token where
  | nodeType (t : String)
  | layout (m : String)
  | sizingH (m : String)
  | sizingV (m : String)
  | blend (m : String)
  | constraintH (c : String)
  | constraintV (c : String)
  | effect (t : String)
  | color (r g b a : ℤ)
  | strokeColor (r g b a : ℤ)
  | effectColor (r g b a : ℤ)
  | radius (v : ℚ)
  | opacityTok (v : ℚ)
  | strokeWeightTok (v : ℚ)
  | fontSizeTok (v : ℚ)
  | padTop (v : ℚ)
  | padRight (v : ℚ)
  | padBottom (v : ℚ)
  | padLeft (v : ℚ)
  | spacing (v : ℚ)
deriving DecidableEq

/-- `x.toFixed(2)` quantization of a colour channel: two decimals. -/
def q2 (x : ℚ) : ℤ := round (x * 100)

/-- `s.length != 0`: JS string truthiness. -/
def strTruthy (s : String) : Bool := s ≠ ""

/-- The operator tokens one node pushes (in source push order): its type,
non-`NONE` layout mode, sizing modes, non-`PASS_THROUGH` blend mode, both
constraint axes, and each visible effect's type. -/
def nodeOperators (d : LintNodeData) : List Token :=
  [Token.nodeType d.type]
  ++ (match d.layoutMode with
      | some m => if strTruthy m ∧ m ≠ "NONE" then [Token.layout m] else []
      | none => [])
  ++ (match d.layoutSizingHorizontal with
      | some m => if strTruthy m then [Token.sizingH m] else []
      | none => [])
  ++ (match d.layoutSizingVertical with
      | some m => if strTruthy m then [Token.sizingV m] else []
      | none => [])
  ++ (match d.blendMode with
      | some m => if strTruthy m ∧ m ≠ "PASS_THROUGH" then [Token.blend m] else []
      | none => [])
  ++ (match d.constraints with
      | some c => [Token.constraintH c.horizontal, Token.constraintV c.vertical]
      | none => [])
  ++ (match d.effects with
      | some es => es.filterMap (fun e => if e.visible then some (Token.effect e.effectType) else none)
      | none => [])

/-- The operand tokens one node pushes (in source push order): quantized
visible solid fill/stroke colours, visible effect colours, numeric corner
radius, non-1 opacity, positive stroke weight, numeric font size, the four
paddings and item spacing. -/
def nodeOperands (d : LintNodeData) : List Token :=
  (match d.fills with
   | some fs => fs.filterMap (fun f =>
       match f with
       | .solid c visible => if visible then some (Token.color (q2 c.r) (q2 c.g) (q2 c.b) (q2 c.a)) else none
       | .other _ _ => none)
   | none => [])
  ++ (match d.strokes with
      | some ss => ss.filterMap (fun s =>
          match s with
          | .solid c visible => if visible then some (Token.strokeColor (q2 c.r) (q2 c.g) (q2 c.b) (q2 c.a)) else none
          | .other _ _ => none)
      | none => [])
  ++ (match d.effects with
      | some es => es.filterMap (fun e =>
          match e.color with
          | some c => if e.visible then some (Token.effectColor (q2 c.r) (q2 c.g) (q2 c.b) (q2 c.a)) else none
          | none => none)
      | none => [])
  ++ (match d.cornerRadius with
      | some (.num v) => [Token.radius v]
      | some .MIXED => []
      | none => [])
  ++ (match d.opacity with
      | some v => if v ≠ 1 then [Token.opacityTok v] else []
      | none => [])
  ++ (match d.strokeWeight with
      | some v => if v > 0 then [Token.strokeWeightTok v] else []
      | none => [])
  ++ (match d.fontSize with
      | some (.num v) => [Token.fontSizeTok v]
      | some .MIXED => []
      | none => [])
  ++ (match d.paddingTop with | some v => [Token.padTop v] | none => [])
  ++ (match d.paddingRight with | some v => [Token.padRight v] | none => [])
  ++ (match d.paddingBottom with | some v => [Token.padBottom v] | none => [])
  ++ (match d.paddingLeft with | some v => [Token.padLeft v] | none => [])
  ++ (match d.itemSpacing with | some v => [Token.spacing v] | none => [])

mutual
/-- The `walk(node)` closure of `computeHalsteadMetrics`: push this node's
operator and operand tokens onto the two bags, then recurse over
`node.children` when present. -/
def halsteadWalk : LintNode → List Token × List Token → List Token × List Token
  | .mk d cs, bags =>
    let bags1 := (bags.1 ++ nodeOperators d, bags.2 ++ nodeOperands d)
    match cs with
    | none => bags1
    | some l => halsteadWalkList l bags1

def halsteadWalkList : List LintNode → List Token × List Token → List Token × List Token
  | [], bags => bags
  | n :: ns, bags => halsteadWalkList ns (halsteadWalk n bags)
end

/-- The two token bags of `computeHalsteadMetrics` after the walk. -/
def halsteadBags (root : LintNode) : List Token × List Token :=
  halsteadWalk root ([], [])

structure OperatorCount where
  unique : ℕ
  total : ℕ
deriving DecidableEq

/-- Result record of `computeHalsteadMetrics`; `volume`, `difficulty` and
`effort` are JS numbers, modelled as reals. -/
structure HalsteadMetrics where
  vocabulary : ℕ
  length : ℕ
  volume : ℝ
  difficulty : ℝ
  effort : ℝ
  operators : OperatorCount
  operands : OperatorCount

/-- `Math.round(x * 10) / 10`: round to one decimal place. -/
noncomputable def round1 (x : ℝ) : ℝ := (round (x * 10) : ℤ) / 10

/-- `computeHalsteadMetrics` (complexity-analyzer.ts, lines 137-246). -/
noncomputable def computeHalsteadMetrics (root : LintNode) : HalsteadMetrics :=
  let operatorBag := (halsteadBags root).1
  let operandBag := (halsteadBags root).2
  let n1 := operatorBag.dedup.length
  let n2 := operandBag.dedup.length
  let N1 := operatorBag.length
  let N2 := operandBag.length
  let vocabulary := n1 + n2
  let length := N1 + N2
  let volume : ℝ :=
    if 0 < length ∧ 0 < vocabulary then (length : ℝ) * Real.logb 2 (vocabulary : ℝ) else 0
  let difficulty : ℝ :=
    if 0 < n2 then ((n1 : ℝ) / 2) * ((N2 : ℝ) / (n2 : ℝ)) else 0
  let effort := difficulty * volume
  { vocabulary := vocabulary
    length := length
    volume := round1 volume
    difficulty := round1 difficulty
    effort := round1 effort
    operators := ⟨n1, N1⟩
    operands := ⟨n2, N2⟩ }

-- ============================================================================
-- Composite score (`computeCompositeScore`)
-- ============================================================================

/-- `computeCompositeScore` (complexity-analyzer.ts, lines 263-289):
weighted blend of the three axis scores, clamped and rounded. -/
noncomputable def computeCompositeScore (structural : StructuralMetrics)
    (cyclomatic : CyclomaticMetrics) (halstead : HalsteadMetrics) : ℤ :=
  let structuralScore : ℝ :=
    min 100 (Real.logb 2 ((structural.nodeCount : ℝ) + 1) / Real.logb 2 500 * 70
      + (structural.maxDepth : ℝ) / 15 * 30)
  let cyclomaticScore : ℝ :=
    min 100 (((cyclomatic.score : ℝ) - 1) / 19 * 100)
  let halsteadScore : ℝ :=
    if 0 < halstead.volume then
      min 100 (Real.logb 2 halstead.volume / Real.logb 2 5000 * 100)
    else 0
  let composite := structuralScore * 0.3 + cyclomaticScore * 0.3 + halsteadScore * 0.4
  round (min 100 (max 0 composite))

-- ============================================================================
-- Public API (`analyzeComponentComplexity`, `analyzeAllComponents`)
-- ============================================================================

/-- A discovered component: node plus containing page name (`LintComponent`). -/
structure LintComponent where
  node : LintNode
  pageName : String

/-- Result record of `analyzeComponentComplexity`. -/
structure ComponentComplexityResult where
  componentName : String
  nodeId : String
  structural : StructuralMetrics
  cyclomatic : CyclomaticMetrics
  halstead : HalsteadMetrics
  composite : ℤ

/-- `analyzeComponentComplexity` (complexity-analyzer.ts, lines 298-316). -/
noncomputable def analyzeComponentComplexity (component : LintComponent) :
    ComponentComplexityResult :=
  let node := component.node
  let structural := computeStructuralMetrics node
  let cyclomatic := computeCyclomaticMetrics node
  let halstead := computeHalsteadMetrics node
  { componentName := node.name
    nodeId := node.id
    structural := structural
    cyclomatic := cyclomatic
    halstead := halstead
    composite := computeCompositeScore structural cyclomatic halstead }

/-- The comparator `(a, b) => b.composite - a.composite` sorts so that an
earlier element's composite is ≥ a later one's. -/
def byCompositeDesc (a b : ComponentComplexityResult) : Prop :=
  b.composite ≤ a.composite

instance : DecidableRel byCompositeDesc :=
  fun a b => inferInstanceAs (Decidable (b.composite ≤ a.composite))

instance : IsTotal ComponentComplexityResult byCompositeDesc :=
  ⟨fun a b => le_total b.composite a.composite⟩

instance : IsTrans ComponentComplexityResult byCompositeDesc :=
  ⟨fun _ _ _ h1 h2 => le_trans h2 h1⟩

/-- `analyzeAllComponents` (complexity-analyzer.ts, lines 322-337), data
path: analyse each component in order, then sort descending by composite
(`results.sort((a, b) => b.composite - a.composite)`).  The progress
callback and the exception path are modelled in `analyzeAllComponentsE`
below. -/
noncomputable def analyzeAllComponents (components : List LintComponent) :
    List ComponentComplexityResult :=
  List.insertionSort byCompositeDesc (components.map analyzeComponentComplexity)

/-- A possibly malformed component: `none` models a batch entry whose shape
is truly invalid (e.g. `component.node` is `undefined`), so that reading
`node.name` or analysing it throws a `TypeError` at run time. -/
noncomputable def analyzeComponentComplexityE :
    Option LintComponent → Except String ComponentComplexityResult
  | none => .error "TypeError: Cannot read properties of undefined"
  | some comp => .ok (analyzeComponentComplexity comp)

/-- The progress message built by the batch loop:
`Analyzing ${comp.node.name} (${i + 1}/${components.length})`. -/
def progressMessage (nm : String) (i total : ℕ) : String :=
  "Analyzing " ++ nm ++ " (" ++ toString (i + 1) ++ "/" ++ toString total ++ ")"

/-- Reading `comp.node.name` throws when the component shape is invalid. -/
def componentNameE : Option LintComponent → Except String String
  | none => .error "TypeError: Cannot read properties of undefined"
  | some comp => .ok comp.node.name

/-- The `for` loop body of `analyzeAllComponents` under JS exception
semantics: per iteration, first invoke `onProgress` when supplied (building
the message reads `comp.node.name`), then analyse the component and push the
result.  There is no `try`/`catch` in the source, so any raise propagates
and aborts the loop. -/
noncomputable def batchLoop (total : ℕ)
    (onProgress : Option (String → Except String Unit)) :
    ℕ → List (Option LintComponent) → List ComponentComplexityResult →
    Except String (List ComponentComplexityResult)
  | _, [], acc => .ok acc
  | i, c :: rest, acc =>
    let cbStep : Except String Unit :=
      match onProgress with
      | some cb =>
        match componentNameE c with
        | .error e => .error e
        | .ok nm => cb (progressMessage nm i total)
      | none => .ok ()
    match cbStep with
    | .error e => .error e
    | .ok _ =>
      match analyzeComponentComplexityE c with
      | .error e => .error e
      | .ok r => batchLoop total onProgress (i + 1) rest (acc ++ [r])

/-- `analyzeAllComponents` (complexity-analyzer.ts, lines 322-337) under JS
exception semantics: run the loop, then sort the results descending by
composite.  An exception raised inside the loop (by the progress callback or
by a single component's analysis) propagates out of the function. -/
noncomputable def analyzeAllComponentsE (components : List (Option LintComponent))
    (onProgress : Option (String → Except String Unit)) :
    Except String (List ComponentComplexityResult) :=
  match batchLoop components.length onProgress 0 components [] with
  | .error e => .error e
  | .ok rs => .ok (List.insertionSort byCompositeDesc rs)

-- ============================================================================
-- Component discovery (`findComponents`, plugin/data-adapter.ts lines 550-571)
-- ============================================================================

/-- One page of the adapted document: name plus root-level children. -/
structure LintPage where
  name : String
  children : List LintNode

/-- `node.type === 'COMPONENT' || node.type === 'COMPONENT_SET'`. -/
def isComponentType (n : LintNode) : Prop :=
  n.type = "COMPONENT" ∨ n.type = "COMPONENT_SET"

instance (n : LintNode) : Decidable (isComponentType n) :=
  inferInstanceAs (Decidable (_ ∨ _))

mutual
/-- The `walk(node, pageName)` closure of `findComponents`: push the node if
its type matches, then recurse into its children (also inside matches). -/
def findWalk : LintNode → String → List LintComponent
  | .mk d cs, pageName =>
    (if isComponentType (.mk d cs) then [⟨.mk d cs, pageName⟩] else [])
    ++ (match cs with
        | none => []
        | some l => findWalkList l pageName)

def findWalkList : List LintNode → String → List LintComponent
  | [], _ => []
  | n :: ns, p => findWalk n p ++ findWalkList ns p
end

/-- `findComponents`: walk every page's children, tagging results with the
page name; pages in order, children in document order. -/
def findComponents (pages : List LintPage) : List LintComponent :=
  (pages.map (fun p => findWalkList p.children p.name)).flatten

-- ============================================================================
-- Audit statistics (`calculateAuditStats`, cli/reporters.ts lines 204-213
-- and ui/message-handler.ts lines 774-786 — identical bodies)
-- ============================================================================

/-- Modelled from the spec: the shared types module (`shared/types.ts` /
`types.ts`) is not among the sources; spec §3 defines the `AuditCheck`
status as the two-valued tag `pass | fail` (no warning status is ever
produced). -/
inductive CheckStatus where
  | pass
  | fail
deriving DecidableEq

/-- Modelled from the spec: `AuditCheck` is
`{check, status: pass|fail, suggestion, pageName?}` (spec §3); the type
declaration itself lives in the missing shared types module. -/
structure AuditCheck where
  check : String
  status : CheckStatus
  suggestion : String
  pageName : Option String
deriving DecidableEq

/-- The stats record returned by `calculateAuditStats`. -/
structure ScoreStats where
  score : ℤ
  passed : ℕ
  warnings : ℕ
  failed : ℕ
  total : ℕ
deriving DecidableEq

/-- `calculateAuditStats` (identical in cli/reporters.ts and
ui/message-handler.ts): empty list short-circuits to a perfect score;
otherwise count pass/fail statuses and round the percentage. -/
def calculateAuditStats (checks : List AuditCheck) : ScoreStats :=
  if checks.length = 0 then ⟨100, 0, 0, 0, 0⟩
  else
    let passed := (checks.filter (fun c => c.status = CheckStatus.pass)).length
    let failed := (checks.filter (fun c => c.status = CheckStatus.fail)).length
    let total := checks.length
    ⟨round ((passed : ℚ) / (total : ℚ) * 100), passed, 0, failed, total⟩

-- ============================================================================
-- Specification-side helper functions (used to state the claims)
-- ============================================================================

/-- Claim-side contribution of one property definition to the cyclomatic
score: a VARIANT contributes the count of its declared options (1 when no
options are declared); BOOLEAN, INSTANCE_SWAP and TEXT contribute 1. -/
def specPropContribution (d : ComponentPropertyDefinition) : ℕ :=
  match d.type with
  | .VARIANT =>
    match d.variantOptions with
    | some opts => opts.length
    | none => 1
  | .BOOLEAN => 1
  | .INSTANCE_SWAP => 1
  | .TEXT => 1

/-- All `componentPropertyDefinitions` entries found anywhere in the
subtree, in depth-first pre-order. -/
def allPropDefs (n : LintNode) : List ComponentPropertyDefinition :=
  ((allNodes n).map
    (fun m => (m.data.componentPropertyDefinitions.getD []).map Prod.snd)).flatten

mutual
/-- The depth of every node of the subtree (root at depth `d`), listed in
depth-first pre-order. -/
def depthList : LintNode → ℕ → List ℕ
  | .mk _ cs, d =>
    d :: (match cs with
      | none => []
      | some l => depthListList l (d + 1))

def depthListList : List LintNode → ℕ → List ℕ
  | [], _ => []
  | c :: cs, d => depthList c d ++ depthListList cs d
end

/-- Maximum of a list of naturals (0 for the empty list). -/
def maxOf (l : List ℕ) : ℕ := l.foldr max 0

/-- Number of subtree nodes with zero children. -/
def leavesCount (n : LintNode) : ℕ :=
  ((allNodes n).filter (fun m => m.childList.length = 0)).length

/-- The children-count of every subtree node, in pre-order. -/
def fanOuts (n : LintNode) : List ℕ :=
  (allNodes n).map (fun m => m.childList.length)

/-- The type tag of every subtree node, in pre-order. -/
def typesOf (n : LintNode) : List String :=
  (allNodes n).map LintNode.type

/-- Fold a record-bump over a list of keys. -/
def bumpAll (dist : List (String × ℕ)) (ts : List String) : List (String × ℕ) :=
  ts.foldl bump dist

/-- The operator tokens of the whole subtree, in push order. -/
def opTokensOf (n : LintNode) : List Token :=
  ((allNodes n).map (fun m => nodeOperators m.data)).flatten

/-- The operand tokens of the whole subtree, in push order. -/
def odTokensOf (n : LintNode) : List Token :=
  ((allNodes n).map (fun m => nodeOperands m.data)).flatten

-- ============================================================================
-- Helper lemmas: histograms, maxima, pre-order lists
-- ============================================================================

theorem maxOf_nil : maxOf [] = 0 := rfl

theorem maxOf_cons (a : ℕ) (l : List ℕ) : maxOf (a :: l) = max a (maxOf l) := rfl

theorem maxOf_append (l1 l2 : List ℕ) :
    maxOf (l1 ++ l2) = max (maxOf l1) (maxOf l2) := by
  induction l1 with
  | nil => simp [maxOf]
  | cons a l ih =>
    simp only [List.cons_append, maxOf_cons, ih, max_assoc]

theorem ite_gt_eq_max (a b : ℕ) : (if b > a then b else a) = max a b := by
  rcases le_or_lt b a with h | h
  · rw [if_neg (not_lt.mpr h), max_eq_left h]
  · rw [if_pos h, max_eq_right h.le]

theorem lookupD_bump (l : List (String × ℕ)) (t t' : String) :
    lookupD (bump l t) t' = lookupD l t' + (if t = t' then 1 else 0) := by
  induction l with
  | nil =>
    by_cases h : t = t' <;> simp [bump, lookupD, h]
  | cons kv rest ih =>
    obtain ⟨k, v⟩ := kv
    by_cases hk : k = t
    · subst hk
      by_cases h : k = t' <;> simp [bump, lookupD, h]
    · by_cases h : k = t'
      · subst h
        have : t ≠ k := fun hh => hk hh.symm
        simp [bump, lookupD, hk, this]
      · simp [bump, lookupD, hk, h, ih]

theorem sumSnd_bump (l : List (String × ℕ)) (t : String) :
    ((bump l t).map Prod.snd).sum = (l.map Prod.snd).sum + 1 := by
  induction l with
  | nil => simp [bump]
  | cons kv rest ih =>
    obtain ⟨k, v⟩ := kv
    by_cases hk : k = t
    · simp [bump, hk]
      ring
    · simp [bump, hk, ih]
      ring

theorem bumpAll_nil (dist : List (String × ℕ)) : bumpAll dist [] = dist := rfl

theorem bumpAll_cons (dist : List (String × ℕ)) (t : String) (ts : List String) :
    bumpAll dist (t :: ts) = bumpAll (bump dist t) ts := rfl

theorem bumpAll_append (dist : List (String × ℕ)) (ts1 ts2 : List String) :
    bumpAll dist (ts1 ++ ts2) = bumpAll (bumpAll dist ts1) ts2 := by
  simp [bumpAll, List.foldl_append]

theorem lookupD_bumpAll (dist : List (String × ℕ)) (ts : List String) (t : String) :
    lookupD (bumpAll dist ts) t =
      lookupD dist t + (ts.filter (fun x => x = t)).length := by
  induction ts generalizing dist with
  | nil => simp [bumpAll]
  | cons x ts ih =>
    rw [bumpAll_cons, ih, lookupD_bump]
    by_cases h : x = t <;> simp [h] <;> ring

theorem sumSnd_bumpAll (dist : List (String × ℕ)) (ts : List String) :
    ((bumpAll dist ts).map Prod.snd).sum = (dist.map Prod.snd).sum + ts.length := by
  induction ts generalizing dist with
  | nil => simp [bumpAll]
  | cons x ts ih =>
    rw [bumpAll_cons, ih, sumSnd_bump]
    simp
    ring

theorem count_map_eq_length_filter {α : Type} (f : α → String) (l : List α) (t : String) :
    ((l.map f).filter (fun x => x = t)).length =
      (l.filter (fun x => f x = t)).length := by
  induction l with
  | nil => rfl
  | cons a l ih =>
    by_cases h : f a = t <;> simp [h, ih]

-- ============================================================================
-- Characterization of the structural walk
-- ============================================================================

/-- List version of `leavesCount`. -/
def leavesCountL (l : List LintNode) : ℕ :=
  ((allNodesList l).filter (fun m => m.childList.length = 0)).length

/-- List version of `fanOuts`. -/
def fanOutsL (l : List LintNode) : List ℕ :=
  (allNodesList l).map (fun m => m.childList.length)

/-- List version of `typesOf`. -/
def typesOfL (l : List LintNode) : List String :=
  (allNodesList l).map LintNode.type

@[simp] theorem allNodesList_nil : allNodesList [] = [] := rfl

@[simp] theorem allNodesList_cons (c : LintNode) (cs : List LintNode) :
    allNodesList (c :: cs) = allNodes c ++ allNodesList cs := rfl

@[simp] theorem depthListList_nil (d : ℕ) : depthListList [] d = [] := rfl

@[simp] theorem depthListList_cons (c : LintNode) (cs : List LintNode) (d : ℕ) :
    depthListList (c :: cs) d = depthList c d ++ depthListList cs d := rfl

/-- The state the structural walk reaches from `s` on one node. -/
def structAfter (n : LintNode) (d : ℕ) (s : StructState) : StructState :=
  { nodeCount := s.nodeCount + (allNodes n).length
    leafCount := s.leafCount + leavesCount n
    maxDepth := max s.maxDepth (maxOf (depthList n d))
    maxFanOut := max s.maxFanOut (maxOf (fanOuts n))
    typeDistribution := bumpAll s.typeDistribution (typesOf n) }

/-- The state the structural walk reaches from `s` on a node list. -/
def structAfterList (l : List LintNode) (d : ℕ) (s : StructState) : StructState :=
  { nodeCount := s.nodeCount + (allNodesList l).length
    leafCount := s.leafCount + leavesCountL l
    maxDepth := max s.maxDepth (maxOf (depthListList l d))
    maxFanOut := max s.maxFanOut (maxOf (fanOutsL l))
    typeDistribution := bumpAll s.typeDistribution (typesOfL l) }

theorem allNodes_def (dd : LintNodeData) (cs : Option (List LintNode)) :
    allNodes (.mk dd cs) = .mk dd cs :: allNodesList (LintNode.mk dd cs).childList := by
  cases cs <;> simp [allNodes, LintNode.childList, allNodesList]

theorem depthList_def (dd : LintNodeData) (cs : Option (List LintNode)) (d : ℕ) :
    depthList (.mk dd cs) d = d :: depthListList (LintNode.mk dd cs).childList (d + 1) := by
  cases cs <;> simp [depthList, LintNode.childList, depthListList]

mutual
theorem structWalk_eq : ∀ (n : LintNode) (d : ℕ) (s : StructState),
    structWalk n d s = structAfter n d s
  | .mk dd none, d, s => by
    simp only [structWalk, structAfter, StructState.mk.injEq]
    refine ⟨?_, ?_, ?_, ?_, ?_⟩
    · rw [allNodes_def]; simp
    · rw [leavesCount, allNodes_def]; simp
    · rw [depthList_def]; simp [depthListList, maxOf, ite_gt_eq_max]
    · rw [fanOuts, allNodes_def]; simp [allNodesList, maxOf]
    · rw [typesOf, allNodes_def]; simp [allNodesList, bumpAll]
  | .mk dd (some []), d, s => by
    simp only [structWalk, structAfter, StructState.mk.injEq]
    refine ⟨?_, ?_, ?_, ?_, ?_⟩
    · rw [allNodes_def]; simp [allNodesList]
    · rw [leavesCount, allNodes_def]; simp [allNodesList]
    · rw [depthList_def]; simp [depthListList, maxOf, ite_gt_eq_max]
    · rw [fanOuts, allNodes_def]; simp [allNodesList, maxOf]
    · rw [typesOf, allNodes_def]; simp [allNodesList, bumpAll]
  | .mk dd (some (c :: rest)), d, s => by
    simp only [structWalk, structWalkList_eq (c :: rest) (d + 1),
      structAfter, structAfterList, StructState.mk.injEq]
    refine ⟨?_, ?_, ?_, ?_, ?_⟩
    · rw [allNodes_def]; simp; omega
    · rw [leavesCount, allNodes_def]
      simp [leavesCountL, List.filter_cons]
    · rw [depthList_def]
      simp only [LintNode.childList_some, maxOf_cons, ite_gt_eq_max, max_assoc]
    · rw [fanOuts, allNodes_def]
      simp only [LintNode.childList_some, List.map_cons, maxOf_cons,
        ite_gt_eq_max, max_assoc, List.length_cons, fanOutsL]
    · rw [typesOf, allNodes_def]
      simp only [List.map_cons, LintNode.type_mk, bumpAll_cons,
        LintNode.childList_some, typesOfL]

theorem structWalkList_eq : ∀ (l : List LintNode) (d : ℕ) (s : StructState),
    structWalkList l d s = structAfterList l d s
  | [], d, s => by
    simp [structWalkList, structAfterList, allNodesList, leavesCountL,
      fanOutsL, typesOfL, depthListList, maxOf, bumpAll]
  | c :: cs, d, s => by
    rw [structWalkList, structWalk_eq c d, structWalkList_eq cs d]
    simp only [structAfter, structAfterList, allNodesList, leavesCountL,
      fanOutsL, typesOfL, depthListList, List.filter_append, List.map_append,
      List.length_append, maxOf_append, bumpAll_append, max_assoc,
      leavesCount, fanOuts, typesOf, add_assoc]
end

/-- Closed form of `computeStructuralMetrics` in terms of the pre-order
node list. -/
theorem computeStructuralMetrics_eq (n : LintNode) :
    computeStructuralMetrics n =
      { nodeCount := (allNodes n).length
        maxDepth := maxOf (depthList n 0)
        leafCount := leavesCount n
        maxFanOut := maxOf (fanOuts n)
        uniqueTypes := (bumpAll [] (typesOf n)).length
        typeDistribution := bumpAll [] (typesOf n) } := by
  simp [computeStructuralMetrics, structWalk_eq, structAfter]

theorem allNodesList_length (l : List LintNode) :
    (allNodesList l).length = (l.map (fun c => (allNodes c).length)).sum := by
  induction l with
  | nil => simp
  | cons c cs ih => simp [ih]

/-- C8: the structural metrics computed in one depth-first walk satisfy:
nodeCount is 1 plus the sum of the direct children's nodeCounts; maxDepth
is the maximum node depth with the root at depth 0; leafCount counts the
nodes with zero children; maxFanOut is the largest children-count at any
single node; the type-distribution histogram maps each type tag to its
occurrence count, and nodeCount is the sum of the histogram's counts. -/
theorem claim_C8_structural_metrics (n : LintNode) :
    (computeStructuralMetrics n).nodeCount
        = 1 + (n.childList.map (fun c => (computeStructuralMetrics c).nodeCount)).sum
    ∧ (computeStructuralMetrics n).maxDepth = maxOf (depthList n 0)
    ∧ (computeStructuralMetrics n).leafCount
        = ((allNodes n).filter (fun m => m.childList.length = 0)).length
    ∧ (computeStructuralMetrics n).maxFanOut
        = maxOf ((allNodes n).map (fun m => m.childList.length))
    ∧ (∀ t, lookupD (computeStructuralMetrics n).typeDistribution t
        = ((allNodes n).filter (fun m => m.type = t)).length)
    ∧ ((computeStructuralMetrics n).typeDistribution.map Prod.snd).sum
        = (computeStructuralMetrics n).nodeCount := by
  refine ⟨?_, ?_, ?_, ?_, ?_, ?_⟩
  · obtain ⟨dd, cs⟩ := n
    simp only [computeStructuralMetrics_eq, allNodes_def, List.length_cons,
      allNodesList_length]
    omega
  · simp [computeStructuralMetrics_eq]
  · simp [computeStructuralMetrics_eq, leavesCount]
  · simp [computeStructuralMetrics_eq, fanOuts]
  · intro t
    simp only [computeStructuralMetrics_eq, lookupD_bumpAll, typesOf,
      count_map_eq_length_filter]
    simp [lookupD]
  · simp only [computeStructuralMetrics_eq, sumSnd_bumpAll, typesOf,
      List.length_map]
    simp

-- ============================================================================
-- Characterization of the cyclomatic walk
-- ============================================================================

/-- Per-definition contribution to the `variants` counter. -/
def vContrib (d : ComponentPropertyDefinition) : ℕ :=
  match d.type with
  | .VARIANT =>
    match d.variantOptions with
    | some opts => opts.length
    | none => 1
  | _ => 0

/-- Per-definition contribution to the `booleanProps` counter. -/
def bContrib (d : ComponentPropertyDefinition) : ℕ :=
  match d.type with
  | .BOOLEAN => 1
  | _ => 0

/-- Per-definition contribution to the `instanceSwaps` counter. -/
def iContrib (d : ComponentPropertyDefinition) : ℕ :=
  match d.type with
  | .INSTANCE_SWAP => 1
  | _ => 0

/-- Per-definition contribution to the `textProps` counter. -/
def tContrib (d : ComponentPropertyDefinition) : ℕ :=
  match d.type with
  | .TEXT => 1
  | _ => 0

theorem addDef_eq (c : CycloBreakdown) (d : ComponentPropertyDefinition) :
    addDef c d =
      ⟨c.variants + vContrib d, c.booleanProps + bContrib d,
       c.instanceSwaps + iContrib d, c.textProps + tContrib d⟩ := by
  obtain ⟨t, vo⟩ := d
  cases t <;> cases vo <;> simp [addDef, vContrib, bContrib, iContrib, tContrib]

theorem foldl_addDef_eq (defs : List ComponentPropertyDefinition) :
    ∀ c : CycloBreakdown,
    defs.foldl addDef c =
      ⟨c.variants + (defs.map vContrib).sum,
       c.booleanProps + (defs.map bContrib).sum,
       c.instanceSwaps + (defs.map iContrib).sum,
       c.textProps + (defs.map tContrib).sum⟩ := by
  induction defs with
  | nil => intro c; simp
  | cons d rest ih =>
    intro c
    simp only [List.foldl_cons, ih, addDef_eq, List.map_cons, List.sum_cons]
    simp [add_assoc]

/-- List version of `allPropDefs`. -/
def allPropDefsL (l : List LintNode) : List ComponentPropertyDefinition :=
  ((allNodesList l).map
    (fun m => (m.data.componentPropertyDefinitions.getD []).map Prod.snd)).flatten

theorem allPropDefs_def (dd : LintNodeData) (cs : Option (List LintNode)) :
    allPropDefs (.mk dd cs) =
      (dd.componentPropertyDefinitions.getD []).map Prod.snd
        ++ allPropDefsL (LintNode.mk dd cs).childList := by
  rw [allPropDefs, allNodes_def, allPropDefsL]
  simp

mutual
theorem cycloWalk_eq : ∀ (n : LintNode) (c : CycloBreakdown),
    cycloWalk n c = (allPropDefs n).foldl addDef c
  | .mk dd none, c => by
    rw [cycloWalk, allPropDefs_def]
    cases h : dd.componentPropertyDefinitions <;>
      simp [h, allPropDefsL, allNodesList]
  | .mk dd (some l), c => by
    rw [cycloWalk, allPropDefs_def, cycloWalkList_eq l]
    cases h : dd.componentPropertyDefinitions <;>
      simp [h, List.foldl_append]

theorem cycloWalkList_eq : ∀ (l : List LintNode) (c : CycloBreakdown),
    cycloWalkList l c = (allPropDefsL l).foldl addDef c
  | [], c => by
    simp [cycloWalkList, allPropDefsL, allNodesList]
  | n :: ns, c => by
    rw [cycloWalkList, cycloWalk_eq n c, cycloWalkList_eq ns]
    simp [allPropDefsL, allNodesList, List.foldl_append, allPropDefs]
end

theorem sum_map_contribs (defs : List ComponentPropertyDefinition) :
    (defs.map vContrib).sum + (defs.map bContrib).sum
      + (defs.map iContrib).sum + (defs.map tContrib).sum
      = (defs.map specPropContribution).sum := by
  induction defs with
  | nil => simp
  | cons d rest ih =>
    simp only [List.map_cons, List.sum_cons]
    rw [← ih]
    have : vContrib d + bContrib d + iContrib d + tContrib d
        = specPropContribution d := by
      obtain ⟨t, vo⟩ := d
      cases t <;> cases vo <;>
        simp [vContrib, bContrib, iContrib, tContrib, specPropContribution]
    omega

/-- `computeCyclomaticMetrics` in closed form. -/
theorem computeCyclomaticMetrics_score (n : LintNode) :
    (computeCyclomaticMetrics n).score
      = 1 + ((allPropDefs n).map specPropContribution).sum := by
  simp only [computeCyclomaticMetrics, cycloWalk_eq, foldl_addDef_eq]
  simp [← sum_map_contribs]
  omega

/-- The cyclomatic score is at least 1. -/
theorem one_le_cyclomatic_score (n : LintNode) :
    1 ≤ (computeCyclomaticMetrics n).score := by
  rw [computeCyclomaticMetrics_score]
  omega

-- ============================================================================
-- Concrete example components
-- ============================================================================

/-- A node payload with every optional field absent. -/
def plainData (idStr nm t : String) : LintNodeData :=
  { id := idStr, name := nm, type := t,
    componentPropertyDefinitions := none, layoutMode := none,
    layoutSizingHorizontal := none, layoutSizingVertical := none,
    blendMode := none, constraints := none, effects := none, fills := none,
    strokes := none, cornerRadius := none, opacity := none,
    strokeWeight := none, fontSize := none, paddingTop := none,
    paddingRight := none, paddingBottom := none, paddingLeft := none,
    itemSpacing := none }

/-- A bare COMPONENT node: no children, no property definitions. -/
def bareComponentNode : LintNode :=
  .mk (plainData "1:1" "Bare" "COMPONENT") none

/-- The spec's worked example: 2 VARIANT properties (3 and 2 options) and
1 BOOLEAN property. -/
def exampleComp7 : LintNode :=
  .mk { plainData "1:2" "Example" "COMPONENT_SET" with
        componentPropertyDefinitions := some
          [("Size", ⟨.VARIANT, some ["Small", "Medium", "Large"]⟩),
           ("Tone", ⟨.VARIANT, some ["Light", "Dark"]⟩),
           ("Show Icon", ⟨.BOOLEAN, none⟩)] }
      none

/-- C1: the design-adapted cyclomatic score equals 1 plus, summed over every
`componentPropertyDefinitions` entry anywhere in the subtree, the declared
option count for a VARIANT (1 when no options are declared) and 1 for each
BOOLEAN / INSTANCE_SWAP / TEXT property; in particular the 2-VARIANT(3,2) +
1-BOOLEAN example scores 7 and a component with no property definitions
scores exactly 1. -/
theorem claim_C1_cyclomatic_score :
    (∀ n : LintNode,
      (computeCyclomaticMetrics n).score
        = 1 + ((allPropDefs n).map specPropContribution).sum)
    ∧ (computeCyclomaticMetrics exampleComp7).score = 7
    ∧ (computeCyclomaticMetrics bareComponentNode).score = 1 := by
  refine ⟨computeCyclomaticMetrics_score, ?_, ?_⟩ <;> rfl

-- ============================================================================
-- Characterization of component discovery
-- ============================================================================

mutual
theorem findWalk_eq : ∀ (n : LintNode) (p : String),
    findWalk n p =
      ((allNodes n).filter (fun m => decide (isComponentType m))).map
        (fun m => (⟨m, p⟩ : LintComponent))
  | .mk dd cs, p => by
    cases cs with
    | none =>
      by_cases hc : isComponentType (.mk dd none) <;>
        simp [findWalk, allNodes_def, List.filter_cons, hc]
    | some l =>
      rw [findWalk, findWalkList_eq l p, allNodes_def]
      by_cases hc : isComponentType (.mk dd (some l)) <;>
        simp [List.filter_cons, hc]

theorem findWalkList_eq : ∀ (l : List LintNode) (p : String),
    findWalkList l p =
      ((allNodesList l).filter (fun m => decide (isComponentType m))).map
        (fun m => (⟨m, p⟩ : LintComponent))
  | [], p => by simp [findWalkList]
  | n :: ns, p => by
    rw [findWalkList, findWalk_eq n p, findWalkList_eq ns p]
    simp
end

/-- A COMPONENT nested directly inside a COMPONENT_SET. -/
def innerComponent : LintNode :=
  .mk (plainData "2:2" "Button" "COMPONENT") none

/-- A COMPONENT_SET whose only child is `innerComponent`. -/
def nestedSet : LintNode :=
  .mk (plainData "2:1" "ButtonSet" "COMPONENT_SET") (some [innerComponent])

/-- C10: `findComponents` returns exactly the nodes whose type is COMPONENT
or COMPONENT_SET, each paired with the containing page's name, in
depth-first pre-order with children in document order (the filter of the
pre-order node list); traversal continues into matched subtrees, so a
COMPONENT nested inside a COMPONENT_SET is additionally returned. -/
theorem claim_C10_find_components :
    (∀ pages : List LintPage,
      findComponents pages =
        (pages.map (fun p =>
          ((allNodesList p.children).filter (fun m => decide (isComponentType m))).map
            (fun m => (⟨m, p.name⟩ : LintComponent)))).flatten)
    ∧ findComponents [⟨"Page 1", [nestedSet]⟩]
        = [⟨nestedSet, "Page 1"⟩, ⟨innerComponent, "Page 1"⟩] := by
  constructor
  · intro pages
    rw [findComponents]
    congr 1
    exact List.map_congr_left (fun p _ => findWalkList_eq p.children p.name)
  · rfl

-- ============================================================================
-- Characterization of the Halstead walk
-- ============================================================================

/-- List version of `opTokensOf`. -/
def opTokensOfL (l : List LintNode) : List Token :=
  ((allNodesList l).map (fun m => nodeOperators m.data)).flatten

/-- List version of `odTokensOf`. -/
def odTokensOfL (l : List LintNode) : List Token :=
  ((allNodesList l).map (fun m => nodeOperands m.data)).flatten

theorem opTokensOf_def (dd : LintNodeData) (cs : Option (List LintNode)) :
    opTokensOf (.mk dd cs)
      = nodeOperators dd ++ opTokensOfL (LintNode.mk dd cs).childList := by
  rw [opTokensOf, allNodes_def, opTokensOfL]
  simp

theorem odTokensOf_def (dd : LintNodeData) (cs : Option (List LintNode)) :
    odTokensOf (.mk dd cs)
      = nodeOperands dd ++ odTokensOfL (LintNode.mk dd cs).childList := by
  rw [odTokensOf, allNodes_def, odTokensOfL]
  simp

mutual
theorem halsteadWalk_eq : ∀ (n : LintNode) (bags : List Token × List Token),
    halsteadWalk n bags = (bags.1 ++ opTokensOf n, bags.2 ++ odTokensOf n)
  | .mk dd cs, bags => by
    cases cs with
    | none =>
      simp [halsteadWalk, opTokensOf_def, odTokensOf_def, opTokensOfL,
        odTokensOfL]
    | some l =>
      rw [halsteadWalk]
      simp only [halsteadWalkList_eq l, opTokensOf_def, odTokensOf_def,
        LintNode.childList_some, List.append_assoc]

theorem halsteadWalkList_eq : ∀ (l : List LintNode) (bags : List Token × List Token),
    halsteadWalkList l bags = (bags.1 ++ opTokensOfL l, bags.2 ++ odTokensOfL l)
  | [], bags => by simp [halsteadWalkList, opTokensOfL, odTokensOfL]
  | n :: ns, bags => by
    rw [halsteadWalkList, halsteadWalk_eq n, halsteadWalkList_eq ns]
    simp [opTokensOfL, odTokensOfL, opTokensOf, odTokensOf]
end

theorem halsteadBags_eq (root : LintNode) :
    halsteadBags root = (opTokensOf root, odTokensOf root) := by
  simp [halsteadBags, halsteadWalk_eq]

theorem nodeOperators_ne_nil (dd : LintNodeData) : nodeOperators dd ≠ [] := by
  simp [nodeOperators]

theorem opTokensOf_ne_nil (n : LintNode) : opTokensOf n ≠ [] := by
  obtain ⟨dd, cs⟩ := n
  rw [opTokensOf_def]
  intro h
  exact nodeOperators_ne_nil dd (List.append_eq_nil.mp h).1

theorem round1_zero : round1 0 = 0 := by
  simp [round1]

theorem round_le_round {x y : ℝ} (h : x ≤ y) : round x ≤ round y := by
  rw [round_eq, round_eq]
  exact Int.floor_le_floor (by linarith)

/-- C5: the Halstead metrics satisfy vocabulary = n1+n2, length = N1+N2,
volume = length × log2(vocabulary) (0 whenever vocabulary ≤ 1 or
length = 0), difficulty = (n1/2)×(N2/n2) (0 whenever n2 = 0), effort =
difficulty × volume (of the unrounded values), with the reported volume,
difficulty and effort each rounded to one decimal place. -/
theorem claim_C5_halstead_identities (root : LintNode) :
    let ops := (halsteadBags root).1
    let ods := (halsteadBags root).2
    let n1 := ops.dedup.length
    let n2 := ods.dedup.length
    let N1 := ops.length
    let N2 := ods.length
    let rawVolume : ℝ :=
      if 0 < N1 + N2 ∧ 0 < n1 + n2
      then ((N1 + N2 : ℕ) : ℝ) * Real.logb 2 ((n1 + n2 : ℕ) : ℝ) else 0
    let rawDifficulty : ℝ :=
      if 0 < n2 then ((n1 : ℝ) / 2) * ((N2 : ℝ) / (n2 : ℝ)) else 0
    let m := computeHalsteadMetrics root
    m.operators = ⟨n1, N1⟩
    ∧ m.operands = ⟨n2, N2⟩
    ∧ m.vocabulary = n1 + n2
    ∧ m.length = N1 + N2
    ∧ m.volume = round1 (((N1 + N2 : ℕ) : ℝ) * Real.logb 2 ((n1 + n2 : ℕ) : ℝ))
    ∧ (m.vocabulary ≤ 1 ∨ m.length = 0 → m.volume = 0)
    ∧ (0 < n2 → m.difficulty = round1 (((n1 : ℝ) / 2) * ((N2 : ℝ) / (n2 : ℝ))))
    ∧ (n2 = 0 → m.difficulty = 0)
    ∧ m.effort = round1 (rawDifficulty * rawVolume) := by
  intro ops ods n1 n2 N1 N2 rawVolume rawDifficulty m
  have hvl : n1 = 0 → N1 = 0 := by
    intro h
    have h1 : ops.dedup = [] := List.length_eq_zero.mp h
    have h2 : ops = [] := (List.dedup_eq_nil ops).mp h1
    simp [N1, h2]
  have hvr : n2 = 0 → N2 = 0 := by
    intro h
    have h1 : ods.dedup = [] := List.length_eq_zero.mp h
    have h2 : ods = [] := (List.dedup_eq_nil ods).mp h1
    simp [N2, h2]
  refine ⟨rfl, rfl, rfl, rfl, ?_, ?_, ?_, ?_, rfl⟩
  · show round1 (if 0 < N1 + N2 ∧ 0 < n1 + n2
        then ((N1 + N2 : ℕ) : ℝ) * Real.logb 2 ((n1 + n2 : ℕ) : ℝ) else 0)
      = round1 (((N1 + N2 : ℕ) : ℝ) * Real.logb 2 ((n1 + n2 : ℕ) : ℝ))
    by_cases hc : 0 < N1 + N2 ∧ 0 < n1 + n2
    · rw [if_pos hc]
    · have hN : N1 + N2 = 0 := by
        rcases not_and_or.mp hc with h | h
        · omega
        · have h1 := hvl (by omega)
          have h2 := hvr (by omega)
          omega
      rw [if_neg hc, hN]
      norm_num
  · intro h
    have h' : n1 + n2 ≤ 1 ∨ N1 + N2 = 0 := h
    show round1 (if 0 < N1 + N2 ∧ 0 < n1 + n2
        then ((N1 + N2 : ℕ) : ℝ) * Real.logb 2 ((n1 + n2 : ℕ) : ℝ) else 0) = 0
    rcases h' with h1 | h1
    · rcases Nat.eq_zero_or_pos (N1 + N2) with hN | hN
      · rw [if_neg (by omega), round1_zero]
      · have hv1 : n1 + n2 = 1 := by
          rcases Nat.eq_zero_or_pos (n1 + n2) with h0 | hp
          · have e1 := hvl (by omega)
            have e2 := hvr (by omega)
            omega
          · omega
        rw [if_pos ⟨hN, by omega⟩, hv1, Nat.cast_one, Real.logb_one, mul_zero,
          round1_zero]
    · rw [if_neg (by omega), round1_zero]
  · intro hn2
    show round1 (if 0 < n2 then ((n1 : ℝ) / 2) * ((N2 : ℝ) / (n2 : ℝ)) else 0)
      = round1 (((n1 : ℝ) / 2) * ((N2 : ℝ) / (n2 : ℝ)))
    rw [if_pos hn2]
  · intro hn2
    show round1 (if 0 < n2 then ((n1 : ℝ) / 2) * ((N2 : ℝ) / (n2 : ℝ)) else 0) = 0
    rw [if_neg (by omega), round1_zero]

/-- The reported Halstead volume is either exactly 0 or at least 1. -/
theorem volume_dichotomy (root : LintNode) :
    (computeHalsteadMetrics root).volume = 0 ∨ 1 ≤ (computeHalsteadMetrics root).volume := by
  have hops : (halsteadBags root).1 ≠ [] := by
    rw [halsteadBags_eq]
    exact opTokensOf_ne_nil root
  have hN1 : 0 < (halsteadBags root).1.length := List.length_pos.mpr hops
  have hn1 : 0 < (halsteadBags root).1.dedup.length :=
    List.length_pos.mpr (fun hd => hops ((List.dedup_eq_nil _).mp hd))
  show round1 (if 0 < (halsteadBags root).1.length + (halsteadBags root).2.length
        ∧ 0 < (halsteadBags root).1.dedup.length + (halsteadBags root).2.dedup.length
      then (((halsteadBags root).1.length + (halsteadBags root).2.length : ℕ) : ℝ)
        * Real.logb 2
          (((halsteadBags root).1.dedup.length + (halsteadBags root).2.dedup.length : ℕ) : ℝ)
      else 0) = 0
    ∨ 1 ≤ round1 (if 0 < (halsteadBags root).1.length + (halsteadBags root).2.length
        ∧ 0 < (halsteadBags root).1.dedup.length + (halsteadBags root).2.dedup.length
      then (((halsteadBags root).1.length + (halsteadBags root).2.length : ℕ) : ℝ)
        * Real.logb 2
          (((halsteadBags root).1.dedup.length + (halsteadBags root).2.dedup.length : ℕ) : ℝ)
      else 0)
  rw [if_pos ⟨by omega, by omega⟩]
  rcases Nat.lt_or_ge ((halsteadBags root).1.dedup.length + (halsteadBags root).2.dedup.length) 2
    with hv | hv
  · left
    have hv1 : (halsteadBags root).1.dedup.length + (halsteadBags root).2.dedup.length = 1 := by
      omega
    rw [hv1, Nat.cast_one, Real.logb_one, mul_zero, round1_zero]
  · right
    have hlog : (1:ℝ) ≤ Real.logb 2
        (((halsteadBags root).1.dedup.length + (halsteadBags root).2.dedup.length : ℕ) : ℝ) := by
      have h2 : (2:ℝ) ≤
          (((halsteadBags root).1.dedup.length + (halsteadBags root).2.dedup.length : ℕ) : ℝ) := by
        exact_mod_cast hv
      calc (1:ℝ) = Real.logb 2 2 := (Real.logb_self_eq_one one_lt_two).symm
      _ ≤ _ := Real.logb_le_logb_of_le one_lt_two (by norm_num) h2
    have hNr : (1:ℝ) ≤
        (((halsteadBags root).1.length + (halsteadBags root).2.length : ℕ) : ℝ) := by
      have : 1 ≤ (halsteadBags root).1.length + (halsteadBags root).2.length := by omega
      exact_mod_cast this
    have hraw : (1:ℝ) ≤
        (((halsteadBags root).1.length + (halsteadBags root).2.length : ℕ) : ℝ)
          * Real.logb 2
            (((halsteadBags root).1.dedup.length + (halsteadBags root).2.dedup.length : ℕ) : ℝ) := by
      nlinarith
    have hge : (10:ℤ) ≤ round
        ((((halsteadBags root).1.length + (halsteadBags root).2.length : ℕ) : ℝ)
          * Real.logb 2
            (((halsteadBags root).1.dedup.length + (halsteadBags root).2.dedup.length : ℕ) : ℝ)
          * 10) := by
      have h10 : ((10:ℕ):ℝ) ≤
          (((halsteadBags root).1.length + (halsteadBags root).2.length : ℕ) : ℝ)
            * Real.logb 2
              (((halsteadBags root).1.dedup.length + (halsteadBags root).2.dedup.length : ℕ) : ℝ)
            * 10 := by
        have hraw2 := hraw
        push_cast at hraw2 ⊢
        nlinarith [hraw2]
      have h11 := round_le_round h10
      rwa [round_natCast] at h11
    simp only [round1]
    have hcast : ((10:ℤ):ℝ) ≤ _ := Int.cast_le.mpr hge
    push_cast at hcast ⊢
    linarith

-- ============================================================================
-- Composite score: claim-side axis formulas (written from the spec text)
-- ============================================================================

/-- Spec formula: structuralScore =
min(100, (log2(nodeCount+1)/log2(500))×70 + (maxDepth/15)×30). -/
noncomputable def specStructuralScore (s : StructuralMetrics) : ℝ :=
  min 100 (Real.logb 2 ((s.nodeCount : ℝ) + 1) / Real.logb 2 500 * 70
    + (s.maxDepth : ℝ) / 15 * 30)

/-- Spec formula: cyclomaticScore = min(100, ((cyclomatic−1)/19)×100). -/
noncomputable def specCyclomaticScore (c : CyclomaticMetrics) : ℝ :=
  min 100 (((c.score : ℝ) - 1) / 19 * 100)

/-- Spec formula: halsteadScore = min(100, (log2(volume)/log2(5000))×100)
when volume > 0 else 0. -/
noncomputable def specHalsteadScore (h : HalsteadMetrics) : ℝ :=
  if 0 < h.volume then min 100 (Real.logb 2 h.volume / Real.logb 2 5000 * 100)
  else 0

/-- Spec formula: composite =
round(clamp(structural×0.3 + cyclomatic×0.3 + halstead×0.4, 0, 100)). -/
noncomputable def specCompositeScore (s : StructuralMetrics)
    (c : CyclomaticMetrics) (h : HalsteadMetrics) : ℤ :=
  round (min 100 (max 0
    (specStructuralScore s * 0.3 + specCyclomaticScore c * 0.3
      + specHalsteadScore h * 0.4)))

theorem round_clamp_bounds (x : ℝ) :
    0 ≤ round (min 100 (max 0 x)) ∧ round (min 100 (max 0 x)) ≤ 100 := by
  have h0 : (0:ℝ) ≤ min 100 (max 0 x) := le_min (by norm_num) (le_max_left 0 x)
  have h1 : min (100:ℝ) (max 0 x) ≤ 100 := min_le_left _ _
  constructor
  · rw [round_eq]
    exact Int.le_floor.mpr (by push_cast; linarith)
  · rw [round_eq]
    have hlt : ⌊min (100:ℝ) (max 0 x) + 1 / 2⌋ < 101 :=
      Int.floor_lt.mpr (by push_cast; linarith)
    omega

/-- C4: the composite equals round(clamp(0.3·structural + 0.3·cyclomatic +
0.4·halstead, 0, 100)) with the three axis formulas as specified; for every
component each axis score lies in [0,100]; and the composite lies in
[0,100] for any input metrics whatsoever. -/
theorem claim_C4_composite_score :
    (∀ (s : StructuralMetrics) (c : CyclomaticMetrics) (h : HalsteadMetrics),
        computeCompositeScore s c h = specCompositeScore s c h
        ∧ 0 ≤ computeCompositeScore s c h ∧ computeCompositeScore s c h ≤ 100)
    ∧ (∀ node : LintNode,
        (0 ≤ specStructuralScore (computeStructuralMetrics node)
          ∧ specStructuralScore (computeStructuralMetrics node) ≤ 100)
        ∧ (0 ≤ specCyclomaticScore (computeCyclomaticMetrics node)
          ∧ specCyclomaticScore (computeCyclomaticMetrics node) ≤ 100)
        ∧ (0 ≤ specHalsteadScore (computeHalsteadMetrics node)
          ∧ specHalsteadScore (computeHalsteadMetrics node) ≤ 100)) := by
  constructor
  · intro s c h
    exact ⟨rfl, (round_clamp_bounds _).1, (round_clamp_bounds _).2⟩
  · intro node
    refine ⟨⟨?_, ?_⟩, ⟨?_, ?_⟩, ?_, ?_⟩
    · simp only [specStructuralScore]
      have hl : (0:ℝ) ≤ Real.logb 2 (((computeStructuralMetrics node).nodeCount : ℝ) + 1) := by
        refine Real.logb_nonneg one_lt_two ?_
        have hcast : (0:ℝ) ≤ ((computeStructuralMetrics node).nodeCount : ℝ) :=
          Nat.cast_nonneg _
        linarith
      have hl5 : (0:ℝ) < Real.logb 2 500 := Real.logb_pos one_lt_two (by norm_num)
      refine le_min (by norm_num) ?_
      have h1 : (0:ℝ) ≤ Real.logb 2 (((computeStructuralMetrics node).nodeCount : ℝ) + 1)
          / Real.logb 2 500 * 70 :=
        mul_nonneg (div_nonneg hl hl5.le) (by norm_num)
      have h2 : (0:ℝ) ≤ ((computeStructuralMetrics node).maxDepth : ℝ) / 15 * 30 := by
        positivity
      linarith
    · simp only [specStructuralScore]
      exact min_le_left _ _
    · simp only [specCyclomaticScore]
      have h1 : 1 ≤ (computeCyclomaticMetrics node).score := one_le_cyclomatic_score node
      have hr : (1:ℝ) ≤ ((computeCyclomaticMetrics node).score : ℝ) := by exact_mod_cast h1
      refine le_min (by norm_num) ?_
      linarith
    · simp only [specCyclomaticScore]
      exact min_le_left _ _
    · simp only [specHalsteadScore]
      rcases volume_dichotomy node with hv | hv
      · rw [hv]
        simp
      · rw [if_pos (by linarith)]
        have hlog : (0:ℝ) ≤ Real.logb 2 (computeHalsteadMetrics node).volume :=
          Real.logb_nonneg one_lt_two hv
        have hl5 : (0:ℝ) < Real.logb 2 5000 := Real.logb_pos one_lt_two (by norm_num)
        refine le_min (by norm_num) ?_
        have := div_nonneg hlog hl5.le
        linarith
    · simp only [specHalsteadScore]
      split
      · exact min_le_left _ _
      · norm_num

-- ============================================================================
-- Audit statistics claim
-- ============================================================================

/-- A pass-status and a fail-status together cover every check. -/
theorem passfail_partition (checks : List AuditCheck) :
    (checks.filter (fun c => c.status = CheckStatus.pass)).length
      + (checks.filter (fun c => c.status = CheckStatus.fail)).length
      = checks.length := by
  induction checks with
  | nil => simp
  | cons c rest ih =>
    cases h : c.status <;> simp [List.filter_cons, h] <;> omega

/-- C6: `calculateAuditStats` returns score = round(100 × passed/total) with
passed the number of pass-status checks and total the list length;
passed + failed = total; warnings is always 0; and the empty list yields
score = 100. -/
theorem claim_C6_audit_stats (checks : List AuditCheck) :
    (calculateAuditStats checks).score
        = (if checks.length = 0 then 100
           else round ((100 : ℚ) * ((calculateAuditStats checks).passed : ℚ)
             / ((calculateAuditStats checks).total : ℚ)))
    ∧ (calculateAuditStats checks).passed
        = (checks.filter (fun c => c.status = CheckStatus.pass)).length
    ∧ (calculateAuditStats checks).passed + (calculateAuditStats checks).failed
        = (calculateAuditStats checks).total
    ∧ (calculateAuditStats checks).total = checks.length
    ∧ (calculateAuditStats checks).warnings = 0
    ∧ (checks = [] → (calculateAuditStats checks).score = 100) := by
  by_cases hc : checks.length = 0
  · have hnil : checks = [] := List.length_eq_zero.mp hc
    subst hnil
    exact ⟨rfl, rfl, rfl, rfl, rfl, fun _ => rfl⟩
  · have hc' : checks ≠ [] := fun h => hc (by simp [h])
    refine ⟨?_, ?_, ?_, ?_, ?_, ?_⟩
    · rw [if_neg hc]
      have hs : (calculateAuditStats checks).score
          = round (((calculateAuditStats checks).passed : ℚ)
              / ((calculateAuditStats checks).total : ℚ) * 100) := by
        simp [calculateAuditStats, hc']
      rw [hs]
      congr 1
      ring
    · simp [calculateAuditStats, hc']
    · have hp : (calculateAuditStats checks).passed
          = (checks.filter (fun c => c.status = CheckStatus.pass)).length := by
        simp [calculateAuditStats, hc']
      have hf : (calculateAuditStats checks).failed
          = (checks.filter (fun c => c.status = CheckStatus.fail)).length := by
        simp [calculateAuditStats, hc']
      have ht : (calculateAuditStats checks).total = checks.length := by
        simp [calculateAuditStats, hc']
      rw [hp, hf, ht]
      exact passfail_partition checks
    · simp [calculateAuditStats, hc']
    · simp [calculateAuditStats, hc']
    · intro h
      exact absurd (by simp [h]) hc

/-- Witness for C6: the empty check list scores 100. -/
theorem claim_C6_witness : (calculateAuditStats []).score = 100 :=
  (claim_C6_audit_stats []).2.2.2.2.2 rfl

-- ============================================================================
-- Batch ordering, error handling and callback independence
-- ============================================================================

/-- C7: the list returned by the batch entry point is sorted non-increasing
by composite: every element's composite is ≥ every later element's. -/
theorem claim_C7_sorted_descending (components : List LintComponent) :
    List.Pairwise (fun a b => b.composite ≤ a.composite)
      (analyzeAllComponents components) :=
  List.sorted_insertionSort byCompositeDesc
    (components.map analyzeComponentComplexity)

/-- C2 (code-bug evidence): `analyzeAllComponents` invokes the progress
callback with no try/catch, so a throwing callback aborts the whole batch:
with one perfectly valid component, the batch evaluates to the callback's
exception instead of a one-element result list. -/
theorem claim_C2_throwing_callback_aborts_batch :
    analyzeAllComponentsE [some ⟨bareComponentNode, "Page 1"⟩]
        (some (fun _ => Except.error "progress callback threw"))
      = Except.error "progress callback threw" := rfl

/-- C3 (code-bug evidence): the per-component analysis call is not wrapped
in try/catch either, so one malformed component aborts the whole batch:
with a malformed first component and a valid second one, the batch
evaluates to the exception and the valid component's result is lost. -/
theorem claim_C3_component_raise_aborts_batch :
    analyzeAllComponentsE [none, some ⟨bareComponentNode, "Page 1"⟩] none
      = Except.error "TypeError: Cannot read properties of undefined" := rfl

theorem batchLoop_all_ok (cb : Option (String → Except String Unit))
    (hcb : ∀ f ∈ cb, ∀ s, f s = Except.ok ()) (total : ℕ) :
    ∀ (comps : List LintComponent) (i : ℕ) (acc : List ComponentComplexityResult),
      batchLoop total cb i (comps.map some) acc
        = Except.ok (acc ++ comps.map analyzeComponentComplexity) := by
  intro comps
  induction comps with
  | nil =>
    intro i acc
    simp [batchLoop]
  | cons c rest ih =>
    intro i acc
    cases cb with
    | none =>
      simp [batchLoop, analyzeComponentComplexityE, ih]
    | some f =>
      have hf : f (progressMessage c.node.name i total) = Except.ok () :=
        hcb f (by simp) _
      simp [batchLoop, componentNameE, hf, analyzeComponentComplexityE, ih]

/-- C9: the batch result depends only on the input components — with a
non-throwing progress callback and with no callback at all, the batch
returns the same pure function of the input (so re-running on unchanged
input yields identical results, and the callback never affects results). -/
theorem claim_C9_callback_independence (comps : List LintComponent)
    (cb : String → Except String Unit) (hcb : ∀ s, cb s = Except.ok ()) :
    analyzeAllComponentsE (comps.map some) (some cb)
        = Except.ok (analyzeAllComponents comps)
    ∧ analyzeAllComponentsE (comps.map some) none
        = Except.ok (analyzeAllComponents comps) := by
  have hmem : ∀ f ∈ (some cb), ∀ s, f s = Except.ok () := by
    intro f hf s
    have hfe : f = cb := by
      cases hf
      rfl
    rw [hfe]
    exact hcb s
  have hnone : ∀ f ∈ (none : Option (String → Except String Unit)),
      ∀ s, f s = Except.ok () := by
    intro f hf
    cases hf
  constructor
  · simp [analyzeAllComponentsE, batchLoop_all_ok (some cb) hmem,
      analyzeAllComponents]
  · simp [analyzeAllComponentsE, batchLoop_all_ok none hnone,
      analyzeAllComponents]

/-- Witness for C9 at a concrete component and the trivial callback. -/
theorem claim_C9_witness :
    analyzeAllComponentsE [some ⟨bareComponentNode, "Page 1"⟩]
        (some (fun _ => Except.ok ()))
      = Except.ok (analyzeAllComponents [⟨bareComponentNode, "Page 1"⟩]) :=
  (claim_C9_callback_independence [⟨bareComponentNode, "Page 1"⟩]
    (fun _ => Except.ok ()) (fun _ => rfl)).1

/-- Witness for C5 at the bare component: vocabulary 1 forces volume 0 and
the empty operand bag forces difficulty 0. -/
theorem claim_C5_witness :
    (computeHalsteadMetrics bareComponentNode).volume = 0
    ∧ (computeHalsteadMetrics bareComponentNode).difficulty = 0 := by
  obtain ⟨-, -, -, -, -, h6, -, h8, -⟩ :=
    claim_C5_halstead_identities bareComponentNode
  exact ⟨h6 (Or.inl (by decide)), h8 (by decide)⟩

end CtdsLint
